import Mathlib

/-!
Shallow embedding of the Cameraman module (`prboom2/src/cman.c`) of cm-doom.

Modelling conventions:
* C `float` values are modelled exactly by `ℚ`.  Every arithmetic operation the
  claims depend on (lerp by small rationals, sums, comparisons against `0.5`,
  `1.0`, multiplication/division by powers of two) is exact in `float` at the
  inputs the concrete claims use, and the generic claims are about the
  algebraic structure of the code, so `ℚ` is a faithful model.
* The external math primitives the module calls — `sqrt` (via
  `CMAN_VectorLength`), the engine's fixed-point `atan2`
  (`R_PointToAngleEx2` via `CMAN_VectorAngle`), and `cos`/`sin` of
  `ra * 2 * M_PI` — are transcendental library/engine functions, so they are
  abstracted as an explicit parameter record `PrimOps`.  `cosTurn q` stands
  for `cos (q * 2 * M_PI)` and `sinTurn q` for `sin (q * 2 * M_PI)` (the code
  always forms the radian value from a turn fraction immediately before the
  call).  Concrete instantiations used by witnesses give these primitives
  their exact values at the sample points involved.
* The global mutable state of the module (`cman_out`, `cman_was_active`,
  `cman_angle_buffer`, `prev_tangent_angle`) is threaded explicitly as a
  `CmanState` value.  The 1024-slot backing array `cman_angle_buffer.values`
  is modelled as a total map `Int → ℚ` plus an explicit capacity constant;
  the list of slot indices an update touches is defined separately so that
  in-bounds claims about the real fixed-size array can be stated.
* In `ℚ`, `x / 0 = 0`, whereas C float division by zero produces an infinity.
  No claim below depends on the value of an unguarded division by zero; where
  a claim is about the *presence* of a division by zero, the divisor lists
  (`CMAN_*Divisors`) record, following the branch structure of the source,
  the denominator of every division the evaluation executes.
-/

namespace Cman

/-! ### Constants from cman.c -/

def CMAN_PATH_MODE_LINEAR : Int := 0

def CMAN_PATH_MODE_RADIAL : Int := 1

def CMAN_PATH_MODE_BEZIER : Int := 2

def CMAN_SPEED_MODE_DISTANCE : Int := 0

def CMAN_SPEED_MODE_TIME : Int := 1

def CMAN_ANGLE_MODE_RELATIVE : Int := 0

def CMAN_ANGLE_MODE_ABSOLUTE : Int := 1

/-- Capacity of the fixed backing array `float values[1024]` of
`cman_angle_buffer`. -/
def CMAN_ANGLE_BUFFER_CAPACITY : Int := 1024

/-! ### Data model -/

/-- The input cameraman parameters (the anonymous `struct { ... } cman`). -/
structure Profile where
  delay : Int
  path_mode : Int
  speed_mode : Int
  angle_mode : Int
  overshoot : Bool
  warp_player : Bool
  hide_player : Bool
  ga_buffer_len : Int
  speed : ℚ
  x0 : ℚ
  y0 : ℚ
  z0 : ℚ
  x1 : ℚ
  y1 : ℚ
  z1 : ℚ
  x2 : ℚ
  y2 : ℚ
  z2 : ℚ
  a0 : ℚ
  a1 : ℚ
  p0 : ℚ
  p1 : ℚ
  ra0 : ℚ
  ra1 : ℚ
  r0 : ℚ
  r1 : ℚ
  cx0 : ℚ
  cx1 : ℚ
  cy0 : ℚ
  cy1 : ℚ
deriving DecidableEq

/-- The output camera pose (the anonymous `struct { ... } cman_out`). -/
structure Pose where
  x : ℚ
  y : ℚ
  z : ℚ
  a : ℚ
  p : ℚ
deriving DecidableEq

/-- The external math primitives called by the module: `CMAN_VectorLength`'s
`sqrt`, `CMAN_VectorAngle`'s engine `atan2` (`R_PointToAngleEx2` composed with
`CMAN_ToZDoomAngle`), and `cos`/`sin` applied to `ra * 2 * M_PI` (abstracted
at the turn-fraction level as `cosTurn`/`sinTurn`). -/
structure PrimOps where
  len : ℚ → ℚ → ℚ
  bearing : ℚ → ℚ → ℚ
  cosTurn : ℚ → ℚ
  sinTurn : ℚ → ℚ

/-- The global mutable state of the module, threaded explicitly:
`cman_out`, `cman_was_active`, `cman_angle_buffer` (values / index / sum)
and `prev_tangent_angle`. -/
structure CmanState where
  out : Pose
  wasActive : Bool
  buf_values : Int → ℚ
  buf_index : Int
  buf_sum : ℚ
  prevTangentAngle : ℚ

/-- Initial state: C zero-initialized globals. -/
def cState0 : CmanState :=
  { out := ⟨0, 0, 0, 0, 0⟩
    wasActive := false
    buf_values := fun _ => 0
    buf_index := 0
    buf_sum := 0
    prevTangentAngle := 0 }

/-! ### Angle primitives (CMAN_FromZDoomAngle / CMAN_ToZDoomAngle) -/

/-- `CMAN_FromZDoomAngle`: `(int)floorf((a - floorf(a)) * 65536) << FRACBITS`
with `FRACBITS = 16`, producing a BAM angle (`angle_t`, a 32-bit unsigned
value, hence the final reduction modulo `2 ^ 32`). -/
def CMAN_FromZDoomAngle (a : ℚ) : ℕ :=
  ((Int.floor ((a - (Int.floor a : ℚ)) * 65536)).toNat <<< 16) % 2 ^ 32

/-- `CMAN_ToZDoomAngle`: `(float)(1.0 / 65536 * (a >> FRACBITS))`. -/
def CMAN_ToZDoomAngle (a : ℕ) : ℚ :=
  (1 / 65536 : ℚ) * ((a >>> 16 : ℕ) : ℚ)

/-- `CMAN_FixAngleCrossingEast`: corrects an angle crossing the zero (east)
threshold relative to a previous angle value. -/
def CMAN_FixAngleCrossingEast (angle prev_angle : ℚ) : ℚ :=
  if angle - prev_angle < -(1 / 2 : ℚ) then angle + 1
  else if angle - prev_angle > (1 / 2 : ℚ) then angle - 1
  else angle

/-! ### Path evaluators -/

/-- Progress computation of `CMAN_NextLinearValues` (its first statement
block): distance mode divides the travelled distance by the path length,
time mode guards `speed = 0`. -/
def CMAN_LinearProgress (ops : PrimOps) (c : Profile) (t : ℚ) : ℚ :=
  if c.speed_mode = CMAN_SPEED_MODE_DISTANCE then
    c.speed * t / ops.len (c.x1 - c.x0) (c.y1 - c.y0)
  else if c.speed_mode = CMAN_SPEED_MODE_TIME then
    (if c.speed ≠ 0 then t / c.speed else 0)
  else 0

/-- `CMAN_NextLinearValues`: outputs next values for Linear path mode.
Returns the progress value and the new state (only `cman_out` is written). -/
def CMAN_NextLinearValues (ops : PrimOps) (c : Profile) (t : ℚ)
    (overshoot : Bool) (s : CmanState) : ℚ × CmanState :=
  let progress := CMAN_LinearProgress ops c t
  let o : Pose :=
    if overshoot = true ∨ progress < 1 then
      { x := c.x0 + (c.x1 - c.x0) * progress
        y := c.y0 + (c.y1 - c.y0) * progress
        z := c.z0 + (c.z1 - c.z0) * progress
        a := c.a0 + (c.a1 - c.a0) * progress
        p := c.p0 + (c.p1 - c.p0) * progress }
    else
      { x := c.x1, y := c.y1, z := c.z1, a := c.a1, p := c.p1 }
  let o :=
    if c.angle_mode = CMAN_ANGLE_MODE_RELATIVE then
      { o with a := o.a + ops.bearing (c.x1 - c.x0) (c.y1 - c.y0) }
    else o
  (progress, { s with out := o })

/-- Progress computation of `CMAN_NextRadialValues`:  distance mode divides
by `fabs(ra1 - ra0)`, time mode guards `speed = 0`. -/
def CMAN_RadialProgress (c : Profile) (t : ℚ) : ℚ :=
  if c.speed_mode = CMAN_SPEED_MODE_DISTANCE then
    c.speed * t / |c.ra1 - c.ra0|
  else if c.speed_mode = CMAN_SPEED_MODE_TIME then
    (if c.speed ≠ 0 then t / c.speed else 0)
  else 0

/-- `CMAN_NextRadialValues`: outputs next values for Radial path mode. -/
def CMAN_NextRadialValues (ops : PrimOps) (c : Profile) (t : ℚ)
    (overshoot : Bool) (s : CmanState) : ℚ × CmanState :=
  let progress := CMAN_RadialProgress c t
  let ra := if overshoot = true ∨ progress < 1 then
      c.ra0 + (c.ra1 - c.ra0) * progress else c.ra1
  let r := if overshoot = true ∨ progress < 1 then
      c.r0 + (c.r1 - c.r0) * progress else c.r1
  let cx := if overshoot = true ∨ progress < 1 then
      c.cx0 + (c.cx1 - c.cx0) * progress else c.cx1
  let cy := if overshoot = true ∨ progress < 1 then
      c.cy0 + (c.cy1 - c.cy0) * progress else c.cy1
  let oz := if overshoot = true ∨ progress < 1 then
      c.z0 + (c.z1 - c.z0) * progress else c.z1
  let oa := if overshoot = true ∨ progress < 1 then
      c.a0 + (c.a1 - c.a0) * progress else c.a1
  let op := if overshoot = true ∨ progress < 1 then
      c.p0 + (c.p1 - c.p0) * progress else c.p1
  let ox := cx + ops.cosTurn ra * r
  let oy := cy + ops.sinTurn ra * r
  let oa :=
    if c.angle_mode = CMAN_ANGLE_MODE_RELATIVE then
      oa + ops.bearing (cx - ox) (cy - oy)
    else oa
  (progress, { s with out := { x := ox, y := oy, z := oz, a := oa, p := op } })

/-- Progress computation of `CMAN_NextBezierValues`: always time-based,
guarding `speed = 0`. -/
def CMAN_BezierProgress (c : Profile) (t : ℚ) : ℚ :=
  if c.speed ≠ 0 then t / c.speed else 0

/-- `CMAN_NextBezierValues`: outputs next values for Bezier path mode.
In Relative angle mode the tangent heading is estimated by finite difference
against the position one tic earlier (`p = (t - 1) / speed`, an unguarded
division in the source), unwrapped against `prev_tangent_angle` when the
session was already active, stored back into `prev_tangent_angle` and added
to the output yaw. -/
def CMAN_NextBezierValues (ops : PrimOps) (c : Profile) (t : ℚ)
    (overshoot : Bool) (s : CmanState) : ℚ × CmanState :=
  let progress := CMAN_BezierProgress c t
  let o : Pose :=
    if overshoot = true ∨ progress < 1 then
      let p := progress
      let p2 := p * p
      let omp := 1 - p
      let omp2 := omp * omp
      { x := c.x1 + omp2 * (c.x0 - c.x1) + p2 * (c.x2 - c.x1)
        y := c.y1 + omp2 * (c.y0 - c.y1) + p2 * (c.y2 - c.y1)
        z := c.z1 + omp2 * (c.z0 - c.z1) + p2 * (c.z2 - c.z1)
        a := c.a0 + (c.a1 - c.a0) * progress
        p := c.p0 + (c.p1 - c.p0) * progress }
    else
      { x := c.x2, y := c.y2, z := c.z2, a := c.a1, p := c.p1 }
  if c.angle_mode = CMAN_ANGLE_MODE_RELATIVE then
    let p := (t - 1) / c.speed
    let p2 := p * p
    let omp := 1 - p
    let omp2 := omp * omp
    let prevx := c.x1 + omp2 * (c.x0 - c.x1) + p2 * (c.x2 - c.x1)
    let prevy := c.y1 + omp2 * (c.y0 - c.y1) + p2 * (c.y2 - c.y1)
    let tangent_angle := ops.bearing (o.x - prevx) (o.y - prevy)
    let tangent_angle :=
      if s.wasActive = true then
        CMAN_FixAngleCrossingEast tangent_angle s.prevTangentAngle
      else tangent_angle
    (progress,
      { s with out := { o with a := o.a + tangent_angle }
               prevTangentAngle := tangent_angle })
  else
    (progress, { s with out := o })

/-- `CMAN_NextValuesUnbuffered`: dispatch on the path mode; an unrecognized
path mode returns progress `1.0` and leaves the output pose untouched. -/
def CMAN_NextValuesUnbuffered (ops : PrimOps) (c : Profile) (t : ℚ)
    (overshoot : Bool) (s : CmanState) : ℚ × CmanState :=
  if c.path_mode = CMAN_PATH_MODE_LINEAR then
    CMAN_NextLinearValues ops c t overshoot s
  else if c.path_mode = CMAN_PATH_MODE_RADIAL then
    CMAN_NextRadialValues ops c t overshoot s
  else if c.path_mode = CMAN_PATH_MODE_BEZIER then
    CMAN_NextBezierValues ops c t overshoot s
  else
    (1, s)

/-! ### Division audit

Lists of the denominators of every float division each evaluator executes,
following the branch structure of the source.  A division whose guard keeps
it from executing contributes nothing. -/

/-- Denominators of the divisions `CMAN_NextLinearValues` executes. -/
def CMAN_NextLinearDivisors (ops : PrimOps) (c : Profile) : List ℚ :=
  if c.speed_mode = CMAN_SPEED_MODE_DISTANCE then
    [ops.len (c.x1 - c.x0) (c.y1 - c.y0)]
  else if c.speed_mode = CMAN_SPEED_MODE_TIME then
    (if c.speed ≠ 0 then [c.speed] else [])
  else []

/-- Denominators of the divisions `CMAN_NextRadialValues` executes. -/
def CMAN_NextRadialDivisors (c : Profile) : List ℚ :=
  if c.speed_mode = CMAN_SPEED_MODE_DISTANCE then
    [|c.ra1 - c.ra0|]
  else if c.speed_mode = CMAN_SPEED_MODE_TIME then
    (if c.speed ≠ 0 then [c.speed] else [])
  else []

/-- Denominators of the divisions `CMAN_NextBezierValues` executes: the
guarded progress division, plus — in Relative angle mode — the unguarded
`(t - 1.f) / cman.speed` of the tangent lookback. -/
def CMAN_NextBezierDivisors (c : Profile) : List ℚ :=
  (if c.speed ≠ 0 then [c.speed] else []) ++
    (if c.angle_mode = CMAN_ANGLE_MODE_RELATIVE then [c.speed] else [])

/-- Denominators of the divisions `CMAN_NextValuesUnbuffered` executes. -/
def CMAN_NextValuesUnbufferedDivisors (ops : PrimOps) (c : Profile) : List ℚ :=
  if c.path_mode = CMAN_PATH_MODE_LINEAR then
    CMAN_NextLinearDivisors ops c
  else if c.path_mode = CMAN_PATH_MODE_RADIAL then
    CMAN_NextRadialDivisors c
  else if c.path_mode = CMAN_PATH_MODE_BEZIER then
    CMAN_NextBezierDivisors c
  else []

/-! ### Angle smoothing buffer -/

/-- The fill loop of `CMAN_NextBufferValues` on first activation:
`for (int i = ga_buffer_len - 1; i >= 0; i--)` evaluates the path unbuffered
with overshoot forced to `true` at a time decreasing by one each step, stores
the resulting yaw in slot `i` and adds it to the running sum.  The recursion
counts the remaining iterations, so `CMAN_FillBuffer n bt s` writes slot
`n - 1` at time `bt` first. -/
def CMAN_FillBuffer (ops : PrimOps) (c : Profile) :
    ℕ → ℚ → CmanState → CmanState
  | 0, _, s => s
  | n + 1, buffer_t, s =>
    let s1 := (CMAN_NextValuesUnbuffered ops c buffer_t true s).2
    let s2 := { s1 with
      buf_values := Function.update s1.buf_values (n : Int) s1.out.a
      buf_sum := s1.buf_sum + s1.out.a }
    CMAN_FillBuffer ops c n (buffer_t - 1) s2

/-- `CMAN_NextBufferValues`: on first activation (`!cman_was_active`) zeroes
the running sum and fills all `ga_buffer_len` slots starting from time
`t + 1.f * (ga_buffer_len / 2)` (C integer division, hence `Int.tdiv`);
otherwise evaluates the single new sample at that time, subtracts the slot
about to be overwritten from the running sum, adds the new sample and stores
it.  Finally the cyclic index advances, wrapping at `ga_buffer_len`. -/
def CMAN_NextBufferValues (ops : PrimOps) (c : Profile) (t : ℚ)
    (s : CmanState) : CmanState :=
  let next_buffer_t : ℚ := t + 1 * ((Int.tdiv c.ga_buffer_len 2 : Int) : ℚ)
  let s1 :=
    if s.wasActive = false then
      CMAN_FillBuffer ops c c.ga_buffer_len.toNat next_buffer_t
        { s with buf_sum := 0 }
    else
      let s2 := (CMAN_NextValuesUnbuffered ops c next_buffer_t true s).2
      { s2 with
        buf_sum := s2.buf_sum - s2.buf_values s2.buf_index + s2.out.a
        buf_values := Function.update s2.buf_values s2.buf_index s2.out.a }
  let idx := s1.buf_index + 1
  { s1 with buf_index := if idx = c.ga_buffer_len then 0 else idx }

/-- Slot indices of the backing array `cman_angle_buffer.values[1024]` that
one call to `CMAN_NextBufferValues` reads or writes: the first-activation
fill touches slots `0 .. ga_buffer_len - 1`, a steady-state update touches
only the slot at the current cyclic index. -/
def CMAN_BufferSlotsAccessed (c : Profile) (s : CmanState) : List Int :=
  if s.wasActive = false then
    (List.range c.ga_buffer_len.toNat).map Int.ofNat
  else
    [s.buf_index]

/-- `CMAN_NextValues`: updates the angle buffer first when angle buffering is
needed (`ga_buffer_len > 1` and Bezier path mode and Relative angle mode),
then computes the unbuffered values with the profile's own overshoot flag,
then replaces the output yaw with the buffer average. -/
def CMAN_NextValues (ops : PrimOps) (c : Profile) (t : ℚ)
    (s : CmanState) : ℚ × CmanState :=
  let angle_buffering_needed : Bool :=
    decide (c.ga_buffer_len > 1) &&
      decide (c.path_mode = CMAN_PATH_MODE_BEZIER) &&
      decide (c.angle_mode = CMAN_ANGLE_MODE_RELATIVE)
  let s1 := if angle_buffering_needed then CMAN_NextBufferValues ops c t s else s
  let pr := CMAN_NextValuesUnbuffered ops c t c.overshoot s1
  let s3 :=
    if angle_buffering_needed then
      { pr.2 with out := { pr.2.out with
          a := pr.2.buf_sum / (c.ga_buffer_len : ℚ) } }
    else pr.2
  (pr.1, s3)

/-! ### Tic orchestrator -/

/-- Host-visible actions one `CMAN_Ticker` call performs: clearing the walk
camera override at level start, the one-frame view-interpolation reset, the
camera pose written to `walkcamera`, the player warp and hide requests, and
the auto-exit request. -/
structure TickerEffects where
  walkcamCleared : Bool
  interpReset : Bool
  poseWritten : Option Pose
  warpRequested : Bool
  hideRequested : Bool
  exitRequested : Bool
deriving DecidableEq

/-- No host-visible action. -/
def noEffects : TickerEffects :=
  { walkcamCleared := false
    interpReset := false
    poseWritten := none
    warpRequested := false
    hideRequested := false
    exitRequested := false }

/-- `CMAN_Ticker`: the per-tic call.  Returns the engaged flag, the new
module state and the host-visible effects.  `auto_exit` models
`cman_auto_exit`, `skip_mode` the `dsda_SkipMode()` query, `demoplayback`
the global of the same name. -/
def CMAN_Ticker (ops : PrimOps) (c : Profile)
    (auto_exit skip_mode demoplayback : Bool)
    (gametic levelstarttic leveltime : Int)
    (s : CmanState) : Bool × CmanState × TickerEffects :=
  if c.delay < 0 then
    (false, s, noEffects)
  else
    let s1 := if gametic = levelstarttic then { s with wasActive := false } else s
    let cleared : Bool := decide (gametic = levelstarttic)
    let cman_time := leveltime - c.delay - 1
    if cman_time < 0 then
      (false, s1, { noEffects with walkcamCleared := cleared })
    else
      let pr := CMAN_NextValues ops c (cman_time : ℚ) s1
      if pr.1 < 1 then
        (true, { pr.2 with wasActive := true },
          { walkcamCleared := cleared
            interpReset := !pr.2.wasActive
            poseWritten := some pr.2.out
            warpRequested := c.warp_player && !demoplayback
            hideRequested := c.hide_player
            exitRequested := false })
      else
        (true, { pr.2 with wasActive := true },
          { noEffects with
            walkcamCleared := cleared
            exitRequested := auto_exit && !skip_mode })

/-- Runs `CMAN_Ticker` on tics `0, 1, 2, …` of a freshly started level
(`levelstarttic = 0`, `gametic = leveltime = n` on the n-th call), returning
the final state and, per tic, the engaged flag and the interpolation-reset
flag. -/
def CMAN_TickerSeq (ops : PrimOps) (c : Profile)
    (auto_exit skip_mode demoplayback : Bool) :
    ℕ → CmanState → CmanState × List (Bool × Bool)
  | 0, s => (s, [])
  | n + 1, s =>
    let prev := CMAN_TickerSeq ops c auto_exit skip_mode demoplayback n s
    let r := CMAN_Ticker ops c auto_exit skip_mode demoplayback
      (n : Int) 0 (n : Int) prev.1
    (r.2.1, prev.2 ++ [(r.1, r.2.2.interpReset)])

/-- Iterates steady-state buffer updates: step `k` applies
`CMAN_NextBufferValues` at time `ts k`. -/
def bufferSteadyRun (ops : PrimOps) (c : Profile) (ts : ℕ → ℚ) :
    ℕ → CmanState → CmanState
  | 0, s => s
  | k + 1, s => bufferSteadyRun ops c ts k (CMAN_NextBufferValues ops c (ts k) s)

/-! ### Concrete instantiations used by the witnesses -/

/-- Example instantiation of the external math primitives, exact at the
sample points the concrete test profiles use: `len` is the exact Euclidean
norm on axis-aligned vectors (`len x 0 = |x|`, `len 0 y = |y|`, which covers
every vector the concrete profiles produce), the bearing is irrelevant to
the concrete claims and set to `0`, and `cosTurn`/`sinTurn` take their
exact values at quarter turns. -/
def exOps : PrimOps where
  len := fun x y => if y = 0 then |x| else if x = 0 then |y| else 0
  bearing := fun _ _ => 0
  cosTurn := fun q =>
    if q = 0 then 1 else if q = 1 / 4 then 0
    else if q = 1 / 2 then -1 else if q = 3 / 4 then 0 else 1
  sinTurn := fun q =>
    if q = 0 then 0 else if q = 1 / 4 then 1
    else if q = 1 / 2 then 0 else if q = 3 / 4 then -1 else 0

/-- A profile whose unused fields are zero; concrete profiles below override
the fields they care about. -/
def baseProfile : Profile :=
  { delay := 0
    path_mode := CMAN_PATH_MODE_LINEAR
    speed_mode := CMAN_SPEED_MODE_DISTANCE
    angle_mode := CMAN_ANGLE_MODE_ABSOLUTE
    overshoot := false
    warp_player := false
    hide_player := false
    ga_buffer_len := 0
    speed := 1
    x0 := 0, y0 := 0, z0 := 0
    x1 := 0, y1 := 0, z1 := 0
    x2 := 0, y2 := 0, z2 := 0
    a0 := 0, a1 := 0, p0 := 0, p1 := 0
    ra0 := 0, ra1 := 0, r0 := 0, r1 := 0
    cx0 := 0, cx1 := 0, cy0 := 0, cy1 := 0 }

/-! ### Derived definitions used to state properties -/

/-- Buffer invariant: the running sum equals the exact sum of the
`ga_buffer_len` stored slot values. -/
def BufInv (N : Int) (s : CmanState) : Prop :=
  s.buf_sum = ∑ i in Finset.range N.toNat, s.buf_values (i : Int)

/-- The output yaw `cman_out.a` the Bezier evaluator produces during the
first-activation fill (overshoot forced `true`, `cman_was_active` still
false, Relative angle mode): the linear yaw interpolation plus the raw
finite-difference tangent bearing.  A closed form of the corresponding
branch of `CMAN_NextBezierValues`, independent of the threaded state. -/
def CMAN_BezierFillYaw (ops : PrimOps) (c : Profile) (t : ℚ) : ℚ :=
  let progress := CMAN_BezierProgress c t
  let ox := c.x1 + (1 - progress) * (1 - progress) * (c.x0 - c.x1)
      + progress * progress * (c.x2 - c.x1)
  let oy := c.y1 + (1 - progress) * (1 - progress) * (c.y0 - c.y1)
      + progress * progress * (c.y2 - c.y1)
  let p := (t - 1) / c.speed
  let prevx := c.x1 + (1 - p) * (1 - p) * (c.x0 - c.x1) + p * p * (c.x2 - c.x1)
  let prevy := c.y1 + (1 - p) * (1 - p) * (c.y0 - c.y1) + p * p * (c.y2 - c.y1)
  c.a0 + (c.a1 - c.a0) * progress + ops.bearing (ox - prevx) (oy - prevy)

/-- The raw (pre-unwrap) per-tic tangent heading `CMAN_NextBezierValues`
computes in Relative angle mode: the bearing of the finite difference
between the position at time `t` (snapped to the terminal point when
overshoot is off and progress reached 1) and the position one tic
earlier. -/
def CMAN_BezierRawTangent (ops : PrimOps) (c : Profile) (t : ℚ)
    (overshoot : Bool) : ℚ :=
  let progress := CMAN_BezierProgress c t
  let ox := if overshoot = true ∨ progress < 1 then
      c.x1 + (1 - progress) * (1 - progress) * (c.x0 - c.x1)
        + progress * progress * (c.x2 - c.x1)
    else c.x2
  let oy := if overshoot = true ∨ progress < 1 then
      c.y1 + (1 - progress) * (1 - progress) * (c.y0 - c.y1)
        + progress * progress * (c.y2 - c.y1)
    else c.y2
  let p := (t - 1) / c.speed
  let prevx := c.x1 + (1 - p) * (1 - p) * (c.x0 - c.x1) + p * p * (c.x2 - c.x1)
  let prevy := c.y1 + (1 - p) * (1 - p) * (c.y0 - c.y1) + p * p * (c.y2 - c.y1)
  ops.bearing (ox - prevx) (oy - prevy)

/-! ### Concrete profiles used by the claims -/

/-- C1 test profile: Linear path, distance speed mode, `P0 = (0,0,0)`,
`P1 = (100,0,0)`, `speed = 10`. -/
def c1profile : Profile := { baseProfile with speed := 10, x1 := 100 }

/-- C2 test profile: `delay = 5`, Linear path, time speed mode,
`speed = 100` (so progress stays below 1 for the first hundred active
tics). -/
def c2profile : Profile :=
  { baseProfile with
    delay := 5
    speed_mode := CMAN_SPEED_MODE_TIME
    speed := 100 }

/-- C3 test profile: Bezier path, Relative angle mode, `speed = 1`, control
polygon `P0 = (0,0)`, `P1 = (1,1)`, `P2 = (2,0)` — its finite-difference
deltas differ between tic 0 and tic 1, letting `wrapOps` produce a raw
bearing crossing the east wrap boundary. -/
def c3profile : Profile :=
  { baseProfile with
    path_mode := CMAN_PATH_MODE_BEZIER
    angle_mode := CMAN_ANGLE_MODE_RELATIVE
    speed := 1
    x1 := 1, y1 := 1, x2 := 2, y2 := 0 }

/-- Math primitives for the C3 scenario: the bearing resolver maps the
tic-0 finite difference `(2,4)` to `0.99` and the tic-1 difference `(2,0)`
to `0.01`, realizing a raw tangent sequence that crosses the `0.99 → 0.01`
wrap boundary between consecutive tics. -/
def wrapOps : PrimOps where
  len := fun _ _ => 0
  bearing := fun _ dy => if dy = 4 then 99 / 100 else if dy = 0 then 1 / 100 else 0
  cosTurn := fun _ => 0
  sinTurn := fun _ => 0

/-- State after the first C3 tic (evaluated at `t = 0` from the initial
state), with `wasActive` then set by the orchestrator. -/
def c3s1 : CmanState :=
  { (CMAN_NextBezierValues wrapOps c3profile 0 true cState0).2 with
    wasActive := true }

/-- C4 test profile: Bezier path, Relative angle mode, buffer length 2. -/
def c4profile : Profile :=
  { baseProfile with
    path_mode := CMAN_PATH_MODE_BEZIER
    angle_mode := CMAN_ANGLE_MODE_RELATIVE
    speed := 1
    ga_buffer_len := 2
    x1 := 1, y1 := 1, x2 := 2, y2 := 0, a1 := 1 }

/-- C5 test profile: Bezier path, Relative angle mode, buffer length 4. -/
def c5profile : Profile :=
  { baseProfile with
    path_mode := CMAN_PATH_MODE_BEZIER
    angle_mode := CMAN_ANGLE_MODE_RELATIVE
    speed := 1
    ga_buffer_len := 4 }

/-- C7 test profile: Radial path, time speed mode, `speed = 1`, fixed
center `(0,0)`, constant radius `50`, sweep from `ra0 = 0` to
`ra1 = 0.25` (a quarter turn). -/
def c7profile : Profile :=
  { baseProfile with
    path_mode := CMAN_PATH_MODE_RADIAL
    speed_mode := CMAN_SPEED_MODE_TIME
    speed := 1
    ra1 := 1 / 4, r0 := 50, r1 := 50 }

/-- C8 counterexample profile: Bezier path, Relative angle mode, time
speed mode, `speed = 0`. -/
def c8profile : Profile :=
  { baseProfile with
    path_mode := CMAN_PATH_MODE_BEZIER
    angle_mode := CMAN_ANGLE_MODE_RELATIVE
    speed_mode := CMAN_SPEED_MODE_TIME
    speed := 0 }

/-- C8 witness profile: like `c8profile` but with Absolute angle mode,
where no division by zero happens at all. -/
def c8absProfile : Profile :=
  { baseProfile with
    path_mode := CMAN_PATH_MODE_BEZIER
    angle_mode := CMAN_ANGLE_MODE_ABSOLUTE
    speed_mode := CMAN_SPEED_MODE_TIME
    speed := 0 }

/-- C9 test profile: an unrecognized path mode. -/
def c9profile : Profile := { baseProfile with path_mode := 7 }

/-! ### Structural lemmas about the evaluators and the angle buffer -/

/-- The path evaluators only write `cman_out` and (for Bezier)
`prev_tangent_angle`: the angle-buffer fields and the activity flag pass
through unchanged. -/
theorem nextValuesUnbuffered_preserves (ops : PrimOps) (c : Profile) (t : ℚ)
    (ov : Bool) (s : CmanState) :
    ((CMAN_NextValuesUnbuffered ops c t ov s).2).buf_values = s.buf_values ∧
    ((CMAN_NextValuesUnbuffered ops c t ov s).2).buf_index = s.buf_index ∧
    ((CMAN_NextValuesUnbuffered ops c t ov s).2).buf_sum = s.buf_sum ∧
    ((CMAN_NextValuesUnbuffered ops c t ov s).2).wasActive = s.wasActive := by
  unfold CMAN_NextValuesUnbuffered CMAN_NextLinearValues CMAN_NextRadialValues
    CMAN_NextBezierValues
  repeat' split
  all_goals exact ⟨rfl, rfl, rfl, rfl⟩

/-- Summing a pointwise-updated slot map over an index range containing the
updated slot replaces exactly that slot's contribution. -/
theorem sum_range_update (f : Int → ℚ) (n : ℕ) (j : Int) (hj0 : 0 ≤ j)
    (hjn : j < (n : Int)) (v : ℚ) :
    (∑ i in Finset.range n, Function.update f j v (i : Int))
      = (∑ i in Finset.range n, f (i : Int)) - f j + v := by
  obtain ⟨i0, rfl⟩ : ∃ i0 : ℕ, j = (i0 : Int) :=
    ⟨j.toNat, (Int.toNat_of_nonneg hj0).symm⟩
  have hi0 : i0 < n := by exact_mod_cast hjn
  have hsplit : ∀ i ∈ Finset.range n,
      Function.update f (i0 : Int) v (i : Int)
        = f (i : Int) + (if i = i0 then v - f (i0 : Int) else 0) := by
    intro i _
    by_cases h : i = i0
    · subst h; simp [Function.update_apply]
    · have : (i : Int) ≠ (i0 : Int) := by exact_mod_cast h
      simp [Function.update_apply, this, h]
  rw [Finset.sum_congr rfl hsplit, Finset.sum_add_distrib,
    Finset.sum_ite_eq' (Finset.range n) i0 (fun _ => v - f (i0 : Int))]
  simp [Finset.mem_range.mpr hi0]
  ring

/-- The first-activation fill loop: the ring index and the activity flag
pass through, slots outside `0 .. n-1` are untouched, and the running sum
accumulates exactly the values it stores. -/
theorem fillBuffer_struct (ops : PrimOps) (c : Profile) :
    ∀ (n : ℕ) (bt : ℚ) (s : CmanState),
      ((CMAN_FillBuffer ops c n bt s).buf_index = s.buf_index) ∧
      ((CMAN_FillBuffer ops c n bt s).wasActive = s.wasActive) ∧
      (∀ j : Int, (∀ i : ℕ, i < n → (i : Int) ≠ j) →
        (CMAN_FillBuffer ops c n bt s).buf_values j = s.buf_values j) ∧
      ((CMAN_FillBuffer ops c n bt s).buf_sum
        = s.buf_sum + ∑ i in Finset.range n,
            (CMAN_FillBuffer ops c n bt s).buf_values (i : Int)) := by
  intro n
  induction n with
  | zero => intro bt s; simp [CMAN_FillBuffer]
  | succ n ih =>
    intro bt s
    have hpres := nextValuesUnbuffered_preserves ops c bt true s
    set s1 := (CMAN_NextValuesUnbuffered ops c bt true s).2 with hs1
    set s2 : CmanState := { s1 with
      buf_values := Function.update s1.buf_values (n : Int) s1.out.a
      buf_sum := s1.buf_sum + s1.out.a } with hs2
    have hstep : CMAN_FillBuffer ops c (n + 1) bt s
        = CMAN_FillBuffer ops c n (bt - 1) s2 := rfl
    obtain ⟨ihi, ihw, ihu, ihs⟩ := ih (bt - 1) s2
    refine ⟨?_, ?_, ?_, ?_⟩
    · rw [hstep, ihi]; exact hpres.2.1
    · rw [hstep, ihw]; exact hpres.2.2.2
    · intro j hj
      rw [hstep, ihu j (fun i hi => hj i (Nat.lt_succ_of_lt hi))]
      have hjn : (n : Int) ≠ j := hj n (Nat.lt_succ_self n)
      simp only [hs2]
      rw [Function.update_apply, if_neg (fun h => hjn h.symm)]
      exact congrFun hpres.1 j
    · have hne : ∀ i : ℕ, i < n → (i : Int) ≠ (n : Int) := by
        intro i hi h
        rw [Nat.cast_inj] at h
        omega
      have hslotn : (CMAN_FillBuffer ops c n (bt - 1) s2).buf_values (n : Int)
          = s1.out.a := by
        rw [ihu (n : Int) hne]
        simp [hs2]
      rw [hstep, ihs, Finset.sum_range_succ, hslotn]
      have hsum2 : s2.buf_sum = s.buf_sum + s1.out.a := by
        simp [hs2, hpres.2.2.1]
      rw [hsum2]
      ring

/-- First-activation case of `CMAN_NextBufferValues`: the sum and slot map
come from the fill loop started with sum `0`, the ring index advances by
one (wrapping at `ga_buffer_len`) and the activity flag stays false. -/
theorem nextBufferValues_fill_components (ops : PrimOps) (c : Profile) (t : ℚ)
    (s : CmanState) (h : s.wasActive = false) :
    (CMAN_NextBufferValues ops c t s).buf_sum
        = (CMAN_FillBuffer ops c c.ga_buffer_len.toNat
            (t + 1 * ((Int.tdiv c.ga_buffer_len 2 : Int) : ℚ))
            { s with buf_sum := 0 }).buf_sum ∧
      (CMAN_NextBufferValues ops c t s).buf_values
        = (CMAN_FillBuffer ops c c.ga_buffer_len.toNat
            (t + 1 * ((Int.tdiv c.ga_buffer_len 2 : Int) : ℚ))
            { s with buf_sum := 0 }).buf_values ∧
      (CMAN_NextBufferValues ops c t s).buf_index
        = (if s.buf_index + 1 = c.ga_buffer_len then 0 else s.buf_index + 1) ∧
      (CMAN_NextBufferValues ops c t s).wasActive = false := by
  have hidx := (fillBuffer_struct ops c c.ga_buffer_len.toNat
    (t + 1 * ((Int.tdiv c.ga_buffer_len 2 : Int) : ℚ)) { s with buf_sum := 0 }).1
  have hwa := (fillBuffer_struct ops c c.ga_buffer_len.toNat
    (t + 1 * ((Int.tdiv c.ga_buffer_len 2 : Int) : ℚ)) { s with buf_sum := 0 }).2.1
  unfold CMAN_NextBufferValues
  simp only []
  rw [if_pos h]
  exact ⟨rfl, rfl, by rw [hidx], by rw [hwa]; exact h⟩

/-- Steady-state case of `CMAN_NextBufferValues`: the slot at the current
ring index is overwritten with the new lookahead yaw sample, the running
sum is adjusted by the difference, and the ring index advances by one
(wrapping at `ga_buffer_len`). -/
theorem nextBufferValues_steady_components (ops : PrimOps) (c : Profile)
    (t : ℚ) (s : CmanState) (h : s.wasActive = true) :
    (CMAN_NextBufferValues ops c t s).buf_sum
        = s.buf_sum - s.buf_values s.buf_index
            + ((CMAN_NextValuesUnbuffered ops c
                (t + 1 * ((Int.tdiv c.ga_buffer_len 2 : Int) : ℚ)) true s).2).out.a ∧
      (CMAN_NextBufferValues ops c t s).buf_values
        = Function.update s.buf_values s.buf_index
            ((CMAN_NextValuesUnbuffered ops c
                (t + 1 * ((Int.tdiv c.ga_buffer_len 2 : Int) : ℚ)) true s).2).out.a ∧
      (CMAN_NextBufferValues ops c t s).buf_index
        = (if s.buf_index + 1 = c.ga_buffer_len then 0 else s.buf_index + 1) ∧
      (CMAN_NextBufferValues ops c t s).wasActive = true := by
  obtain ⟨hv, hi, hs, hwa⟩ := nextValuesUnbuffered_preserves ops c
    (t + 1 * ((Int.tdiv c.ga_buffer_len 2 : Int) : ℚ)) true s
  unfold CMAN_NextBufferValues
  simp only []
  rw [if_neg (by simp [h])]
  exact ⟨by rw [hs, hv, hi], by rw [hv, hi], by rw [hi], hwa.trans h⟩

/-- A buffer update never changes the activity flag. -/
theorem nextBufferValues_wasActive (ops : PrimOps) (c : Profile) (t : ℚ)
    (s : CmanState) :
    (CMAN_NextBufferValues ops c t s).wasActive = s.wasActive := by
  cases hw : s.wasActive with
  | false => exact (nextBufferValues_fill_components ops c t s hw).2.2.2
  | true => exact (nextBufferValues_steady_components ops c t s hw).2.2.2

/-- A buffer update keeps the ring index inside `[0, ga_buffer_len)`. -/
theorem nextBufferValues_index (ops : PrimOps) (c : Profile) (t : ℚ)
    (s : CmanState) (hN : 0 < c.ga_buffer_len)
    (hidx0 : 0 ≤ s.buf_index) (hidx1 : s.buf_index < c.ga_buffer_len) :
    0 ≤ (CMAN_NextBufferValues ops c t s).buf_index ∧
      (CMAN_NextBufferValues ops c t s).buf_index < c.ga_buffer_len := by
  cases hw : s.wasActive with
  | false =>
    rw [(nextBufferValues_fill_components ops c t s hw).2.2.1]
    constructor <;> [split; split] <;> omega
  | true =>
    rw [(nextBufferValues_steady_components ops c t s hw).2.2.1]
    constructor <;> [split; split] <;> omega

/-- One buffer update establishes (first activation) or preserves (steady
state) the sum invariant. -/
theorem nextBufferValues_inv (ops : PrimOps) (c : Profile) (t : ℚ)
    (s : CmanState) (hN : 0 < c.ga_buffer_len)
    (hidx0 : 0 ≤ s.buf_index) (hidx1 : s.buf_index < c.ga_buffer_len)
    (hinv : s.wasActive = true → BufInv c.ga_buffer_len s) :
    BufInv c.ga_buffer_len (CMAN_NextBufferValues ops c t s) := by
  cases hw : s.wasActive with
  | false =>
    obtain ⟨hsum, hval, -, -⟩ := nextBufferValues_fill_components ops c t s hw
    obtain ⟨-, -, -, hfs⟩ := fillBuffer_struct ops c c.ga_buffer_len.toNat
      (t + 1 * ((Int.tdiv c.ga_buffer_len 2 : Int) : ℚ)) { s with buf_sum := 0 }
    unfold BufInv
    rw [hsum, hval, hfs]
    simp
  | true =>
    obtain ⟨hsum, hval, -, -⟩ := nextBufferValues_steady_components ops c t s hw
    have hNn : ((c.ga_buffer_len.toNat : ℕ) : Int) = c.ga_buffer_len :=
      Int.toNat_of_nonneg (le_of_lt hN)
    unfold BufInv
    rw [hsum, hval, sum_range_update s.buf_values c.ga_buffer_len.toNat
      s.buf_index hidx0 (by rw [hNn]; exact hidx1)]
    rw [(hinv hw : _ = _)]

/-- Any sequence of steady-state buffer updates preserves the sum
invariant, the index bounds and the activity flag. -/
theorem bufferSteadyRun_inv (ops : PrimOps) (c : Profile) (ts : ℕ → ℚ)
    (hN : 0 < c.ga_buffer_len) :
    ∀ (k : ℕ) (s : CmanState), s.wasActive = true →
      BufInv c.ga_buffer_len s →
      0 ≤ s.buf_index → s.buf_index < c.ga_buffer_len →
      BufInv c.ga_buffer_len (bufferSteadyRun ops c ts k s) ∧
        0 ≤ (bufferSteadyRun ops c ts k s).buf_index ∧
        (bufferSteadyRun ops c ts k s).buf_index < c.ga_buffer_len ∧
        (bufferSteadyRun ops c ts k s).wasActive = true := by
  intro k
  induction k with
  | zero => intro s hw hbi h0 h1; exact ⟨hbi, h0, h1, hw⟩
  | succ k ih =>
    intro s hw hbi h0 h1
    have hbi2 := nextBufferValues_inv ops c (ts k) s hN h0 h1 (fun _ => hbi)
    obtain ⟨h02, h12⟩ := nextBufferValues_index ops c (ts k) s hN h0 h1
    have hw2 : (CMAN_NextBufferValues ops c (ts k) s).wasActive = true :=
      (nextBufferValues_wasActive ops c (ts k) s).trans hw
    exact ih (CMAN_NextBufferValues ops c (ts k) s) hw2 hbi2 h02 h12

/-- In Bezier Relative mode, a not-yet-active unbuffered evaluation's yaw is
the state-independent closed form `CMAN_BezierFillYaw`. -/
theorem bezier_unbuffered_yaw (ops : PrimOps) (c : Profile) (t : ℚ)
    (s : CmanState) (hpm : c.path_mode = CMAN_PATH_MODE_BEZIER)
    (ham : c.angle_mode = CMAN_ANGLE_MODE_RELATIVE) (hw : s.wasActive = false) :
    ((CMAN_NextValuesUnbuffered ops c t true s).2).out.a
      = CMAN_BezierFillYaw ops c t := by
  unfold CMAN_NextValuesUnbuffered
  rw [if_neg (by rw [hpm]; decide), if_neg (by rw [hpm]; decide), if_pos hpm]
  unfold CMAN_NextBezierValues CMAN_BezierFillYaw
  simp only []
  rw [if_pos ham, if_pos (Or.inl trivial), if_neg (by simp [hw])]

/-- The fill loop stores, in slot `i`, the lookahead yaw sampled at the
start time minus `n - 1 - i` tics (the loop counts the time down while
walking the slots down from `n - 1`). -/
theorem fillBuffer_values (ops : PrimOps) (c : Profile)
    (hpm : c.path_mode = CMAN_PATH_MODE_BEZIER)
    (ham : c.angle_mode = CMAN_ANGLE_MODE_RELATIVE) :
    ∀ (n : ℕ) (bt : ℚ) (s : CmanState), s.wasActive = false →
      ∀ i : ℕ, i < n →
        (CMAN_FillBuffer ops c n bt s).buf_values (i : Int)
          = CMAN_BezierFillYaw ops c (bt - ((n - 1 - i : ℕ) : ℚ)) := by
  intro n
  induction n with
  | zero => intro bt s hw i hi; exact absurd hi (Nat.not_lt_zero i)
  | succ n ih =>
    intro bt s hw i hi
    have hpres := nextValuesUnbuffered_preserves ops c bt true s
    set s1 := (CMAN_NextValuesUnbuffered ops c bt true s).2 with hs1
    set s2 : CmanState := { s1 with
      buf_values := Function.update s1.buf_values (n : Int) s1.out.a
      buf_sum := s1.buf_sum + s1.out.a } with hs2
    have hstep : CMAN_FillBuffer ops c (n + 1) bt s
        = CMAN_FillBuffer ops c n (bt - 1) s2 := rfl
    have hw2 : s2.wasActive = false := by
      rw [hs2]
      exact hpres.2.2.2.trans hw
    by_cases hin : i < n
    · rw [hstep, ih (bt - 1) s2 hw2 i hin]
      have hni : (n - i : ℕ) = (n - 1 - i) + 1 := by omega
      have hni2 : (n + 1 - 1 - i : ℕ) = (n - i : ℕ) := by omega
      rw [hni2, hni]
      push_cast
      ring_nf
    · have hieq : i = n := by omega
      rw [hstep, (fillBuffer_struct ops c n (bt - 1) s2).2.2.1 (i : Int)
        (fun j hj heq => by rw [Nat.cast_inj] at heq; omega)]
      have hvi : s2.buf_values (i : Int) = s1.out.a := by
        rw [hs2, hieq]
        exact Function.update_same _ _ _
      have h0 : (n + 1 - 1 - i : ℕ) = 0 := by omega
      rw [hvi, hs1, bezier_unbuffered_yaw ops c bt s hpm ham hw, h0]
      norm_num

/-! ### Claims -/

/-- C1: for every profile and every time `t`, if the Linear evaluator is
called with `overshoot = false` and the computed progress is `≥ 1`, the
emitted pose equals exactly the terminal control values — position `P1`,
pitch `p1`, and yaw `a1` (plus, in Relative angle mode, the same constant
path bearing the evaluator adds at every progress value) — independent of
how far `t` exceeds the completion threshold; and if `overshoot = true` the
evaluator interpolates with the raw progress even when it exceeds 1, so the
Linear profile `P0 = (0,0,0)`, `P1 = (100,0,0)`, `speed = 10` in distance
mode at progress `1.5` yields `x = 150`, not a clamped value. -/
theorem C1_linear_snap_and_overshoot :
    (∀ (ops : PrimOps) (c : Profile) (t : ℚ) (s : CmanState),
        1 ≤ CMAN_LinearProgress ops c t →
        ((CMAN_NextLinearValues ops c t false s).2).out.x = c.x1 ∧
        ((CMAN_NextLinearValues ops c t false s).2).out.y = c.y1 ∧
        ((CMAN_NextLinearValues ops c t false s).2).out.z = c.z1 ∧
        ((CMAN_NextLinearValues ops c t false s).2).out.p = c.p1 ∧
        ((CMAN_NextLinearValues ops c t false s).2).out.a
          = c.a1 + (if c.angle_mode = CMAN_ANGLE_MODE_RELATIVE then
              ops.bearing (c.x1 - c.x0) (c.y1 - c.y0) else 0)) ∧
    (∀ (ops : PrimOps) (c : Profile) (t : ℚ) (s : CmanState),
        ((CMAN_NextLinearValues ops c t true s).2).out.x
          = c.x0 + (c.x1 - c.x0) * CMAN_LinearProgress ops c t) ∧
    ((CMAN_NextLinearValues exOps c1profile 15 true cState0).1 = 3 / 2 ∧
      ((CMAN_NextLinearValues exOps c1profile 15 true cState0).2).out.x = 150) := by
  refine ⟨?_, ?_, ?_, ?_⟩
  · intro ops c t s h
    have hno : ¬(false = true ∨ CMAN_LinearProgress ops c t < 1) := by
      rintro (hc | hc)
      · exact absurd hc (by simp)
      · exact absurd hc (not_lt.2 h)
    unfold CMAN_NextLinearValues
    simp only []
    rw [if_neg hno]
    by_cases ham : c.angle_mode = CMAN_ANGLE_MODE_RELATIVE
    · rw [if_pos ham, if_pos ham]
      exact ⟨rfl, rfl, rfl, rfl, rfl⟩
    · rw [if_neg ham, if_neg ham]
      exact ⟨rfl, rfl, rfl, rfl, (add_zero c.a1).symm⟩
  · intro ops c t s
    have hyes : (True ∨ CMAN_LinearProgress ops c t < 1) := Or.inl trivial
    unfold CMAN_NextLinearValues
    simp only []
    rw [if_pos hyes]
    by_cases ham : c.angle_mode = CMAN_ANGLE_MODE_RELATIVE
    · rw [if_pos ham]
    · rw [if_neg ham]
  · norm_num [CMAN_NextLinearValues, CMAN_LinearProgress, c1profile, baseProfile,
      exOps, CMAN_SPEED_MODE_DISTANCE, CMAN_ANGLE_MODE_RELATIVE,
      CMAN_ANGLE_MODE_ABSOLUTE]
  · norm_num [CMAN_NextLinearValues, CMAN_LinearProgress, c1profile, baseProfile,
      exOps, cState0, CMAN_SPEED_MODE_DISTANCE, CMAN_ANGLE_MODE_RELATIVE,
      CMAN_ANGLE_MODE_ABSOLUTE]

/-- C1 witness: the snap conjunct applied at the concrete distance-mode
profile with `t = 20` (progress 2). -/
theorem C1_witness :
    1 ≤ CMAN_LinearProgress exOps c1profile 20 ∧
      ((CMAN_NextLinearValues exOps c1profile 20 false cState0).2).out.x
        = c1profile.x1 :=
  ⟨by norm_num [CMAN_LinearProgress, c1profile, baseProfile, exOps,
      CMAN_SPEED_MODE_DISTANCE],
    (C1_linear_snap_and_overshoot.1 exOps c1profile 20 cState0
      (by norm_num [CMAN_LinearProgress, c1profile, baseProfile, exOps,
        CMAN_SPEED_MODE_DISTANCE])).1⟩

/-- C6: for every turn-fraction value `x ∈ [0,1)`, converting `x` to the
engine's fixed-point binary angle and back (`CMAN_ToZDoomAngle` after
`CMAN_FromZDoomAngle`) yields `x` truncated to the engine's angular
resolution of 65536 steps per turn: `⌊x * 65536⌋ / 65536`. -/
theorem C6_angle_roundtrip (x : ℚ) (h0 : 0 ≤ x) (h1 : x < 1) :
    CMAN_ToZDoomAngle (CMAN_FromZDoomAngle x)
      = ((Int.floor (x * 65536) : Int) : ℚ) / 65536 := by
  have hfx : Int.floor x = 0 := Int.floor_eq_zero_iff.mpr ⟨h0, h1⟩
  have hb0 : 0 ≤ Int.floor (x * 65536) :=
    Int.floor_nonneg.mpr (by positivity)
  have hb1 : Int.floor (x * 65536) < 65536 :=
    Int.floor_lt.mpr (by push_cast; nlinarith)
  unfold CMAN_FromZDoomAngle CMAN_ToZDoomAngle
  rw [hfx]
  push_cast
  rw [sub_zero]
  rw [Nat.shiftLeft_eq, Nat.mod_eq_of_lt (by
    have h2 : (Int.floor (x * 65536)).toNat ≤ 65535 := by omega
    calc (Int.floor (x * 65536)).toNat * 2 ^ 16 ≤ 65535 * 2 ^ 16 :=
          mul_le_mul_right' h2 _
      _ < 2 ^ 32 := by norm_num)]
  rw [Nat.shiftRight_eq_div_pow]
  have h3 : (Int.floor (x * 65536)).toNat * 2 ^ 16 / 2 ^ 16
      = (Int.floor (x * 65536)).toNat :=
    Nat.mul_div_cancel _ (by norm_num)
  rw [h3]
  have h4 : (((Int.floor (x * 65536)).toNat : ℕ) : ℚ)
      = ((Int.floor (x * 65536) : Int) : ℚ) := by
    rw_mod_cast [Int.toNat_of_nonneg hb0]
  rw [h4]
  ring

/-- C6 witness: the round-trip theorem applied at `x = 1/3`. -/
theorem C6_witness :
    (0 : ℚ) ≤ 1 / 3 ∧ (1 / 3 : ℚ) < 1 ∧
      CMAN_ToZDoomAngle (CMAN_FromZDoomAngle (1 / 3))
        = ((Int.floor ((1 / 3 : ℚ) * 65536) : Int) : ℚ) / 65536 :=
  ⟨by norm_num, by norm_num,
    C6_angle_roundtrip (1 / 3) (by norm_num) (by norm_num)⟩


/-- C8 counterexample: the concrete Bezier profile with Relative angle
mode, time speed mode and `speed = 0` executes a division whose denominator
is 0 — the unguarded tangent-lookback division `(t - 1) / speed` — so the
claim that no division by zero happens anywhere in the evaluation is false
as stated. -/
theorem C8_counterexample :
    c8profile.speed_mode = CMAN_SPEED_MODE_TIME ∧ c8profile.speed = 0 ∧
      (0 : ℚ) ∈ CMAN_NextValuesUnbufferedDivisors exOps c8profile := by
  refine ⟨rfl, rfl, ?_⟩
  norm_num [CMAN_NextValuesUnbufferedDivisors, CMAN_NextBezierDivisors,
    c8profile, baseProfile, CMAN_PATH_MODE_LINEAR, CMAN_PATH_MODE_RADIAL,
    CMAN_PATH_MODE_BEZIER, CMAN_ANGLE_MODE_RELATIVE]

/-- C8 (amended): for every profile in time-based speed mode with
`speed = 0`, every path evaluator yields progress 0 (the zero-speed case of
the progress computation is explicitly guarded), and no division by zero
occurs anywhere in the evaluation for the Linear and Radial path modes and
for Bezier with Absolute angle mode; in Bezier path mode with Relative
angle mode the unguarded tangent-lookback division `(t - 1) / speed` still
divides by zero. -/
theorem C8_zero_speed_guard (ops : PrimOps) (c : Profile) (t : ℚ)
    (hsm : c.speed_mode = CMAN_SPEED_MODE_TIME) (hsp : c.speed = 0) :
    CMAN_LinearProgress ops c t = 0 ∧
    CMAN_RadialProgress c t = 0 ∧
    CMAN_BezierProgress c t = 0 ∧
    ((c.path_mode = CMAN_PATH_MODE_LINEAR ∨ c.path_mode = CMAN_PATH_MODE_RADIAL ∨
        (c.path_mode = CMAN_PATH_MODE_BEZIER ∧
          c.angle_mode ≠ CMAN_ANGLE_MODE_RELATIVE)) →
      (0 : ℚ) ∉ CMAN_NextValuesUnbufferedDivisors ops c) ∧
    (c.path_mode = CMAN_PATH_MODE_BEZIER →
      c.angle_mode = CMAN_ANGLE_MODE_RELATIVE →
      (0 : ℚ) ∈ CMAN_NextValuesUnbufferedDivisors ops c) := by
  have hsmd : c.speed_mode ≠ CMAN_SPEED_MODE_DISTANCE := by
    rw [hsm]; decide
  refine ⟨?_, ?_, ?_, ?_, ?_⟩
  · unfold CMAN_LinearProgress
    rw [if_neg hsmd, if_pos hsm, if_neg (by simp [hsp])]
  · unfold CMAN_RadialProgress
    rw [if_neg hsmd, if_pos hsm, if_neg (by simp [hsp])]
  · unfold CMAN_BezierProgress
    rw [if_neg (by simp [hsp])]
  · rintro (hpm | hpm | ⟨hpm, ham⟩)
    · simp [CMAN_NextValuesUnbufferedDivisors, CMAN_NextLinearDivisors,
        hpm, hsm, hsp, CMAN_PATH_MODE_LINEAR, CMAN_PATH_MODE_RADIAL,
        CMAN_PATH_MODE_BEZIER, CMAN_SPEED_MODE_DISTANCE, CMAN_SPEED_MODE_TIME]
    · simp [CMAN_NextValuesUnbufferedDivisors, CMAN_NextRadialDivisors,
        hpm, hsm, hsp, CMAN_PATH_MODE_LINEAR, CMAN_PATH_MODE_RADIAL,
        CMAN_PATH_MODE_BEZIER, CMAN_SPEED_MODE_DISTANCE, CMAN_SPEED_MODE_TIME]
    · simp [CMAN_NextValuesUnbufferedDivisors, CMAN_NextBezierDivisors,
        hpm, hsm, hsp, ham, CMAN_PATH_MODE_LINEAR, CMAN_PATH_MODE_RADIAL,
        CMAN_PATH_MODE_BEZIER, CMAN_SPEED_MODE_DISTANCE, CMAN_SPEED_MODE_TIME]
  · intro hpm ham
    simp [CMAN_NextValuesUnbufferedDivisors, CMAN_NextBezierDivisors, hpm, ham,
      hsp, CMAN_PATH_MODE_LINEAR, CMAN_PATH_MODE_RADIAL, CMAN_PATH_MODE_BEZIER]

/-- C8 witness: the amended guarantee applied to a Bezier profile with
Absolute angle mode and zero speed: progress is 0 and no division by zero
occurs. -/

theorem C8_witness :
    c8absProfile.speed_mode = CMAN_SPEED_MODE_TIME ∧ c8absProfile.speed = 0 ∧
      CMAN_BezierProgress c8absProfile 7 = 0 ∧
      (0 : ℚ) ∉ CMAN_NextValuesUnbufferedDivisors exOps c8absProfile :=
  ⟨rfl, rfl, (C8_zero_speed_guard exOps c8absProfile 7 rfl rfl).2.2.1,
    (C8_zero_speed_guard exOps c8absProfile 7 rfl rfl).2.2.2.1
      (Or.inr (Or.inr ⟨rfl, by decide⟩))⟩

/-- C9: for every profile whose path mode is none of Linear, Radial and
Bezier, the dispatching evaluator returns progress `1.0` without writing
any field of the output pose; consequently the per-tic call on such a
profile (with `delay ≥ 0` and relative tic `≥ 0`) still reports engaged but
skips pose emission and all player side effects, going directly to the
completion branch on its very first active tic. -/
theorem C9_unknown_path_mode :
    (∀ (ops : PrimOps) (c : Profile) (t : ℚ) (ov : Bool) (s : CmanState),
        c.path_mode ≠ CMAN_PATH_MODE_LINEAR →
        c.path_mode ≠ CMAN_PATH_MODE_RADIAL →
        c.path_mode ≠ CMAN_PATH_MODE_BEZIER →
        CMAN_NextValuesUnbuffered ops c t ov s = (1, s)) ∧
    (∀ (ops : PrimOps) (c : Profile) (aE sk dp : Bool)
        (g lst lt : Int) (s : CmanState),
        c.path_mode ≠ CMAN_PATH_MODE_LINEAR →
        c.path_mode ≠ CMAN_PATH_MODE_RADIAL →
        c.path_mode ≠ CMAN_PATH_MODE_BEZIER →
        0 ≤ c.delay → 0 ≤ lt - c.delay - 1 →
        (CMAN_Ticker ops c aE sk dp g lst lt s).1 = true ∧
        ((CMAN_Ticker ops c aE sk dp g lst lt s).2.1).wasActive = true ∧
        ((CMAN_Ticker ops c aE sk dp g lst lt s).2.1).out = s.out ∧
        ((CMAN_Ticker ops c aE sk dp g lst lt s).2.2).poseWritten = none ∧
        ((CMAN_Ticker ops c aE sk dp g lst lt s).2.2).interpReset = false ∧
        ((CMAN_Ticker ops c aE sk dp g lst lt s).2.2).warpRequested = false ∧
        ((CMAN_Ticker ops c aE sk dp g lst lt s).2.2).hideRequested = false ∧
        ((CMAN_Ticker ops c aE sk dp g lst lt s).2.2).exitRequested
          = (aE && !sk)) := by
  have hdisp : ∀ (ops : PrimOps) (c : Profile) (t : ℚ) (ov : Bool)
      (s : CmanState),
      c.path_mode ≠ CMAN_PATH_MODE_LINEAR →
      c.path_mode ≠ CMAN_PATH_MODE_RADIAL →
      c.path_mode ≠ CMAN_PATH_MODE_BEZIER →
      CMAN_NextValuesUnbuffered ops c t ov s = (1, s) := by
    intro ops c t ov s h0 h1 h2
    unfold CMAN_NextValuesUnbuffered
    rw [if_neg h0, if_neg h1, if_neg h2]
  refine ⟨hdisp, ?_⟩
  intro ops c aE sk dp g lst lt s h0 h1 h2 hd ht
  have hnv : ∀ s' : CmanState, CMAN_NextValues ops c ((lt - c.delay - 1 : Int) : ℚ) s' = (1, s') := by
    intro s'
    unfold CMAN_NextValues
    have hb : (decide (c.ga_buffer_len > 1) &&
        decide (c.path_mode = CMAN_PATH_MODE_BEZIER) &&
        decide (c.angle_mode = CMAN_ANGLE_MODE_RELATIVE)) = false := by
      rw [decide_eq_false h2]
      simp
    rw [hb]
    simp only [Bool.false_eq_true, if_false]
    rw [hdisp ops c _ c.overshoot s' h0 h1 h2]
  unfold CMAN_Ticker
  rw [if_neg (by omega)]
  simp only []
  rw [if_neg (by omega)]
  rw [hnv]
  simp only []
  rw [if_neg (by norm_num)]
  refine ⟨rfl, rfl, ?_, rfl, rfl, rfl, rfl, rfl⟩
  split <;> rfl

/-- C9 witness: the Ticker conjunct applied at the concrete unknown-mode
profile on an active tic. -/
theorem C9_witness :
    c9profile.path_mode ≠ CMAN_PATH_MODE_LINEAR ∧
      (0 : Int) ≤ (5 : Int) - c9profile.delay - 1 ∧
      (CMAN_Ticker exOps c9profile false false false 5 0 5 cState0).1 = true ∧
      ((CMAN_Ticker exOps c9profile false false false 5 0 5 cState0).2.2).poseWritten
        = none :=
  ⟨by decide, by decide,
    (C9_unknown_path_mode.2 exOps c9profile false false false 5 0 5 cState0
      (by decide) (by decide) (by decide) (by decide) (by decide)).1,
    (C9_unknown_path_mode.2 exOps c9profile false false false 5 0 5 cState0
      (by decide) (by decide) (by decide) (by decide) (by decide)).2.2.2.1⟩


/-- C10: the angle buffer's backing array has a fixed capacity of 1024
slots and `ga_buffer_len` is never validated against it; under the
precondition `1 < angleBufferLength ≤ 1024` and `0 ≤ index <
angleBufferLength` on entry, every slot access the buffer update performs
(first-activation fill and steady-state overwrite) is within bounds and the
index is again inside `[0, angleBufferLength)` on exit; for
`angleBufferLength > 1024` the fill accesses a slot at or beyond the
capacity. -/
theorem C10_buffer_bounds :
    (∀ (c : Profile) (s : CmanState), 1 < c.ga_buffer_len →
        c.ga_buffer_len ≤ CMAN_ANGLE_BUFFER_CAPACITY →
        0 ≤ s.buf_index → s.buf_index < c.ga_buffer_len →
        (∀ j ∈ CMAN_BufferSlotsAccessed c s,
          0 ≤ j ∧ j < CMAN_ANGLE_BUFFER_CAPACITY) ∧
        (∀ (ops : PrimOps) (t : ℚ),
          0 ≤ (CMAN_NextBufferValues ops c t s).buf_index ∧
          (CMAN_NextBufferValues ops c t s).buf_index < c.ga_buffer_len)) ∧
    (∀ (c : Profile) (s : CmanState),
        CMAN_ANGLE_BUFFER_CAPACITY < c.ga_buffer_len → s.wasActive = false →
        ∃ j ∈ CMAN_BufferSlotsAccessed c s, CMAN_ANGLE_BUFFER_CAPACITY ≤ j) := by
  constructor
  · intro c s hN hcap h0 h1
    constructor
    · intro j hj
      unfold CMAN_BufferSlotsAccessed at hj
      unfold CMAN_ANGLE_BUFFER_CAPACITY at hcap ⊢
      by_cases hw : s.wasActive = false
      · rw [if_pos hw] at hj
        simp only [List.mem_map, List.mem_range, Int.ofNat_eq_coe] at hj
        obtain ⟨i, hi, rfl⟩ := hj
        omega
      · rw [if_neg hw, List.mem_singleton] at hj
        subst hj
        omega
    · intro ops t
      exact nextBufferValues_index ops c t s (by omega) h0 h1
  · intro c s hcap hw
    unfold CMAN_ANGLE_BUFFER_CAPACITY at hcap ⊢
    refine ⟨Int.ofNat (c.ga_buffer_len.toNat - 1), ?_,
      by simp only [Int.ofNat_eq_coe]; omega⟩
    unfold CMAN_BufferSlotsAccessed
    rw [if_pos hw]
    exact List.mem_map.mpr ⟨c.ga_buffer_len.toNat - 1,
      List.mem_range.mpr (by omega), rfl⟩

/-- C10 witness: the in-bounds guarantee applied at a concrete in-range
buffer configuration. -/
theorem C10_witness :
    1 < c4profile.ga_buffer_len ∧
      c4profile.ga_buffer_len ≤ CMAN_ANGLE_BUFFER_CAPACITY ∧
      (∀ j ∈ CMAN_BufferSlotsAccessed c4profile cState0,
        0 ≤ j ∧ j < CMAN_ANGLE_BUFFER_CAPACITY) :=
  ⟨by decide, by decide,
    (C10_buffer_bounds.1 c4profile cState0 (by decide) (by decide)
      (by decide) (by decide)).1⟩


/-- C2: for every loaded profile with `delay ≥ 0` the per-tic call reports
not-engaged and performs no action beyond the level-start reset whenever
`leveltime - delay - 1 < 0`, and reports engaged on every later tic; with
`delay = 5` the tics `0..5` are not engaged, tic 6 is the first engaged tic
(`wasActive` transitions false to true and the view-interpolation reset is
requested exactly once); and once progress reaches 1 the call still reports
engaged, sets `wasActive = true` before returning, and performs no pose
update or player side effects other than the auto-exit check. -/
theorem C2_ticker_state_machine :
    (∀ (ops : PrimOps) (c : Profile) (aE sk dp : Bool)
        (g lst lt : Int) (s : CmanState),
        0 ≤ c.delay → lt - c.delay - 1 < 0 →
        CMAN_Ticker ops c aE sk dp g lst lt s
          = (false, (if g = lst then { s with wasActive := false } else s),
              { noEffects with walkcamCleared := decide (g = lst) })) ∧
    (∀ (ops : PrimOps) (c : Profile) (aE sk dp : Bool)
        (g lst lt : Int) (s : CmanState),
        0 ≤ c.delay → 0 ≤ lt - c.delay - 1 →
        (CMAN_Ticker ops c aE sk dp g lst lt s).1 = true) ∧
    (∀ (ops : PrimOps) (c : Profile) (aE sk dp : Bool)
        (g lst lt : Int) (s : CmanState),
        0 ≤ c.delay → 0 ≤ lt - c.delay - 1 →
        1 ≤ (CMAN_NextValues ops c ((lt - c.delay - 1 : Int) : ℚ)
              (if g = lst then { s with wasActive := false } else s)).1 →
        (CMAN_Ticker ops c aE sk dp g lst lt s).1 = true ∧
        ((CMAN_Ticker ops c aE sk dp g lst lt s).2.1).wasActive = true ∧
        ((CMAN_Ticker ops c aE sk dp g lst lt s).2.2).poseWritten = none ∧
        ((CMAN_Ticker ops c aE sk dp g lst lt s).2.2).interpReset = false ∧
        ((CMAN_Ticker ops c aE sk dp g lst lt s).2.2).warpRequested = false ∧
        ((CMAN_Ticker ops c aE sk dp g lst lt s).2.2).hideRequested = false ∧
        ((CMAN_Ticker ops c aE sk dp g lst lt s).2.2).exitRequested
          = (aE && !sk)) ∧
    ((CMAN_TickerSeq exOps c2profile false false false 11 cState0).2
        = [(false, false), (false, false), (false, false), (false, false),
           (false, false), (false, false), (true, true), (true, false),
           (true, false), (true, false), (true, false)] ∧
      ((CMAN_TickerSeq exOps c2profile false false false 6 cState0).1).wasActive
        = false ∧
      ((CMAN_TickerSeq exOps c2profile false false false 7 cState0).1).wasActive
        = true) := by
  refine ⟨?_, ?_, ?_, ?_, ?_, ?_⟩
  · intro ops c aE sk dp g lst lt s hd hlt
    unfold CMAN_Ticker
    rw [if_neg (by omega)]
    simp only []
    rw [if_pos hlt]
  · intro ops c aE sk dp g lst lt s hd hge
    unfold CMAN_Ticker
    rw [if_neg (by omega)]
    simp only []
    rw [if_neg (by omega)]
    rcases lt_or_le (CMAN_NextValues ops c ((lt - c.delay - 1 : Int) : ℚ)
        (if g = lst then { s with wasActive := false } else s)).1 1 with hpr | hpr
    · rw [if_pos hpr]
    · rw [if_neg (not_lt.2 hpr)]
  · intro ops c aE sk dp g lst lt s hd hge hpr
    unfold CMAN_Ticker
    rw [if_neg (by omega)]
    simp only []
    rw [if_neg (by omega)]
    rw [if_neg (not_lt.2 hpr)]
    exact ⟨rfl, rfl, rfl, rfl, rfl, rfl, rfl⟩
  · norm_num [CMAN_TickerSeq, CMAN_Ticker, CMAN_NextValues,
      CMAN_NextValuesUnbuffered, CMAN_NextLinearValues, CMAN_LinearProgress,
      c2profile, baseProfile, cState0, noEffects, exOps,
      CMAN_PATH_MODE_LINEAR, CMAN_PATH_MODE_RADIAL, CMAN_PATH_MODE_BEZIER,
      CMAN_SPEED_MODE_DISTANCE, CMAN_SPEED_MODE_TIME,
      CMAN_ANGLE_MODE_RELATIVE, CMAN_ANGLE_MODE_ABSOLUTE]
  · norm_num [CMAN_TickerSeq, CMAN_Ticker, CMAN_NextValues,
      CMAN_NextValuesUnbuffered, CMAN_NextLinearValues, CMAN_LinearProgress,
      c2profile, baseProfile, cState0, noEffects, exOps,
      CMAN_PATH_MODE_LINEAR, CMAN_PATH_MODE_RADIAL, CMAN_PATH_MODE_BEZIER,
      CMAN_SPEED_MODE_DISTANCE, CMAN_SPEED_MODE_TIME,
      CMAN_ANGLE_MODE_RELATIVE, CMAN_ANGLE_MODE_ABSOLUTE]
  · norm_num [CMAN_TickerSeq, CMAN_Ticker, CMAN_NextValues,
      CMAN_NextValuesUnbuffered, CMAN_NextLinearValues, CMAN_LinearProgress,
      c2profile, baseProfile, cState0, noEffects, exOps,
      CMAN_PATH_MODE_LINEAR, CMAN_PATH_MODE_RADIAL, CMAN_PATH_MODE_BEZIER,
      CMAN_SPEED_MODE_DISTANCE, CMAN_SPEED_MODE_TIME,
      CMAN_ANGLE_MODE_RELATIVE, CMAN_ANGLE_MODE_ABSOLUTE]


/-- C2 witness: the completion conjunct applied at `leveltime = 106`, where
the concrete profile's progress reaches 1. -/
theorem C2_witness :
    (0 : Int) ≤ c2profile.delay ∧
      (0 : Int) ≤ 106 - c2profile.delay - 1 ∧
      1 ≤ (CMAN_NextValues exOps c2profile ((106 - c2profile.delay - 1 : Int) : ℚ)
            (if (106 : Int) = 0 then { cState0 with wasActive := false }
              else cState0)).1 ∧
      ((CMAN_Ticker exOps c2profile false false false 106 0 106 cState0).2.2).poseWritten
        = none := by
  have hpr : 1 ≤ (CMAN_NextValues exOps c2profile
      ((106 - c2profile.delay - 1 : Int) : ℚ)
      (if (106 : Int) = 0 then { cState0 with wasActive := false }
        else cState0)).1 := by
    norm_num [CMAN_NextValues, CMAN_NextValuesUnbuffered, CMAN_NextLinearValues,
      CMAN_LinearProgress, c2profile, baseProfile, cState0, exOps,
      CMAN_PATH_MODE_LINEAR, CMAN_PATH_MODE_RADIAL, CMAN_PATH_MODE_BEZIER,
      CMAN_SPEED_MODE_DISTANCE, CMAN_SPEED_MODE_TIME,
      CMAN_ANGLE_MODE_RELATIVE, CMAN_ANGLE_MODE_ABSOLUTE]
  exact ⟨by decide, by decide, hpr,
    (C2_ticker_state_machine.2.2.1 exOps c2profile false false false 106 0 106
      cState0 (by decide) (by decide) hpr).2.2.1⟩

/-- C3: in Bezier path mode with Relative angle mode the raw per-tic
tangent heading is unwrapped against the stored previous tangent angle if
and only if the session was active on a prior tic: a raw heading more than
half a turn below the previous one gets `+1.0`, more than half a turn above
gets `-1.0`, otherwise it is unchanged; the possibly-corrected heading is
stored as the new `prevTangentAngle` and added to the output yaw; and a
tangent sequence crossing the `0.99 → 0.01` wrap boundary between
consecutive tics produces the `prevTangentAngle` sequence
`0.99, 1.01` — a step of `0.02`, with no `±1.0` jump. -/
theorem C3_tangent_unwrap :
    (∀ a prev : ℚ,
        (a - prev < -(1 / 2 : ℚ) → CMAN_FixAngleCrossingEast a prev = a + 1) ∧
        (a - prev > (1 / 2 : ℚ) → CMAN_FixAngleCrossingEast a prev = a - 1) ∧
        (-(1 / 2 : ℚ) ≤ a - prev → a - prev ≤ (1 / 2 : ℚ) →
          CMAN_FixAngleCrossingEast a prev = a)) ∧
    (∀ (ops : PrimOps) (c : Profile) (t : ℚ) (ov : Bool) (s : CmanState),
        c.angle_mode = CMAN_ANGLE_MODE_RELATIVE →
        ((CMAN_NextBezierValues ops c t ov s).2).prevTangentAngle
            = (if s.wasActive = true then
                CMAN_FixAngleCrossingEast (CMAN_BezierRawTangent ops c t ov)
                  s.prevTangentAngle
              else CMAN_BezierRawTangent ops c t ov) ∧
        ((CMAN_NextBezierValues ops c t ov s).2).out.a
            = (if ov = true ∨ CMAN_BezierProgress c t < 1 then
                c.a0 + (c.a1 - c.a0) * CMAN_BezierProgress c t
              else c.a1)
              + ((CMAN_NextBezierValues ops c t ov s).2).prevTangentAngle) ∧
    (c3s1.prevTangentAngle = 99 / 100 ∧
      ((CMAN_NextBezierValues wrapOps c3profile 1 true c3s1).2).prevTangentAngle
        = 101 / 100 ∧
      |((CMAN_NextBezierValues wrapOps c3profile 1 true c3s1).2).prevTangentAngle
          - c3s1.prevTangentAngle| < 1 / 2) := by
  refine ⟨?_, ?_, ?_, ?_, ?_⟩
  · intro a prev
    unfold CMAN_FixAngleCrossingEast
    refine ⟨?_, ?_, ?_⟩
    · intro h
      rw [if_pos h]
    · intro h
      rw [if_neg (by linarith), if_pos h]
    · intro h1 h2
      rw [if_neg (by linarith), if_neg (by linarith)]
  · intro ops c t ov s ham
    unfold CMAN_NextBezierValues CMAN_BezierRawTangent
    simp only []
    rw [if_pos ham]
    by_cases hov : (ov = true ∨ CMAN_BezierProgress c t < 1)
    · simp only [if_pos hov]
      exact ⟨trivial, trivial⟩
    · simp only [if_neg hov]
      exact ⟨trivial, trivial⟩
  · norm_num [c3s1, CMAN_NextBezierValues, CMAN_BezierProgress,
      CMAN_FixAngleCrossingEast, c3profile, baseProfile, cState0, wrapOps,
      CMAN_ANGLE_MODE_RELATIVE]
  · norm_num [c3s1, CMAN_NextBezierValues, CMAN_BezierProgress,
      CMAN_FixAngleCrossingEast, c3profile, baseProfile, cState0, wrapOps,
      CMAN_ANGLE_MODE_RELATIVE]
  · rw [show ((CMAN_NextBezierValues wrapOps c3profile 1 true c3s1).2).prevTangentAngle
        = 101 / 100 by
      norm_num [c3s1, CMAN_NextBezierValues, CMAN_BezierProgress,
        CMAN_FixAngleCrossingEast, c3profile, baseProfile, cState0, wrapOps,
        CMAN_ANGLE_MODE_RELATIVE],
      show c3s1.prevTangentAngle = 99 / 100 by
      norm_num [c3s1, CMAN_NextBezierValues, CMAN_BezierProgress,
        CMAN_FixAngleCrossingEast, c3profile, baseProfile, cState0, wrapOps,
        CMAN_ANGLE_MODE_RELATIVE]]
    rw [abs_of_pos (by norm_num)]
    norm_num

/-- C3 witness: the unwrap conjunct applied at the concrete wrap-crossing
scenario's second tic. -/
theorem C3_witness :
    c3profile.angle_mode = CMAN_ANGLE_MODE_RELATIVE ∧
      ((CMAN_NextBezierValues wrapOps c3profile 1 true c3s1).2).prevTangentAngle
        = (if c3s1.wasActive = true then
            CMAN_FixAngleCrossingEast (CMAN_BezierRawTangent wrapOps c3profile 1 true)
              c3s1.prevTangentAngle
          else CMAN_BezierRawTangent wrapOps c3profile 1 true) :=
  ⟨by decide,
    (C3_tangent_unwrap.2.1 wrapOps c3profile 1 true c3s1 (by decide)).1⟩


/-- C7: the Radial evaluator interpolates the sweep angle `ra`, radius
`r` and center `(cx, cy)` linearly between their endpoint values by
progress and outputs position `center + r·(cosTurn ra, sinTurn ra)`; in
Relative angle mode it adds to the yaw the bearing of the vector from the
current position toward the interpolated center (inward-facing); and for
the fixed center `(0,0)`, `r0 = r1 = 50`, `ra0 = 0`, `ra1 = 0.25`, the
output position at progress 1 is `(0, 50)`. -/
theorem C7_radial_orbit :
    (∀ (ops : PrimOps) (c : Profile) (t : ℚ) (ov : Bool) (s : CmanState),
        (ov = true ∨ CMAN_RadialProgress c t < 1) →
        ((CMAN_NextRadialValues ops c t ov s).2).out.x
          = (c.cx0 + (c.cx1 - c.cx0) * CMAN_RadialProgress c t)
            + ops.cosTurn (c.ra0 + (c.ra1 - c.ra0) * CMAN_RadialProgress c t)
              * (c.r0 + (c.r1 - c.r0) * CMAN_RadialProgress c t) ∧
        ((CMAN_NextRadialValues ops c t ov s).2).out.y
          = (c.cy0 + (c.cy1 - c.cy0) * CMAN_RadialProgress c t)
            + ops.sinTurn (c.ra0 + (c.ra1 - c.ra0) * CMAN_RadialProgress c t)
              * (c.r0 + (c.r1 - c.r0) * CMAN_RadialProgress c t) ∧
        (c.angle_mode = CMAN_ANGLE_MODE_RELATIVE →
          ((CMAN_NextRadialValues ops c t ov s).2).out.a
            = (c.a0 + (c.a1 - c.a0) * CMAN_RadialProgress c t)
              + ops.bearing
                  ((c.cx0 + (c.cx1 - c.cx0) * CMAN_RadialProgress c t)
                    - ((CMAN_NextRadialValues ops c t ov s).2).out.x)
                  ((c.cy0 + (c.cy1 - c.cy0) * CMAN_RadialProgress c t)
                    - ((CMAN_NextRadialValues ops c t ov s).2).out.y))) ∧
    (∀ (ops : PrimOps) (c : Profile) (t : ℚ) (s : CmanState),
        1 ≤ CMAN_RadialProgress c t →
        ((CMAN_NextRadialValues ops c t false s).2).out.x
          = c.cx1 + ops.cosTurn c.ra1 * c.r1 ∧
        ((CMAN_NextRadialValues ops c t false s).2).out.y
          = c.cy1 + ops.sinTurn c.ra1 * c.r1) ∧
    (((CMAN_NextRadialValues exOps c7profile 1 false cState0).2).out.x = 0 ∧
      ((CMAN_NextRadialValues exOps c7profile 1 false cState0).2).out.y = 50) := by
  refine ⟨?_, ?_, ?_, ?_⟩
  · intro ops c t ov s hov
    unfold CMAN_NextRadialValues
    simp only [if_pos hov]
    refine ⟨trivial, trivial, ?_⟩
    intro ham
    simp only [if_pos ham]
  · intro ops c t s h
    have hno : ¬(false = true ∨ CMAN_RadialProgress c t < 1) := by
      rintro (hc | hc)
      · exact absurd hc (by simp)
      · exact absurd hc (not_lt.2 h)
    unfold CMAN_NextRadialValues
    simp only [if_neg hno]
    exact ⟨trivial, trivial⟩
  · norm_num [CMAN_NextRadialValues, CMAN_RadialProgress, c7profile,
      baseProfile, cState0, exOps, CMAN_SPEED_MODE_DISTANCE,
      CMAN_SPEED_MODE_TIME, CMAN_ANGLE_MODE_RELATIVE, CMAN_ANGLE_MODE_ABSOLUTE]
  · norm_num [CMAN_NextRadialValues, CMAN_RadialProgress, c7profile,
      baseProfile, cState0, exOps, CMAN_SPEED_MODE_DISTANCE,
      CMAN_SPEED_MODE_TIME, CMAN_ANGLE_MODE_RELATIVE, CMAN_ANGLE_MODE_ABSOLUTE]

/-- C7 witness: the interpolation conjunct applied with overshoot on at
mid-path progress. -/
theorem C7_witness :
    (true = true ∨ CMAN_RadialProgress c7profile (1 / 2) < 1) ∧
      ((CMAN_NextRadialValues exOps c7profile (1 / 2) true cState0).2).out.x
        = (c7profile.cx0 + (c7profile.cx1 - c7profile.cx0)
              * CMAN_RadialProgress c7profile (1 / 2))
          + exOps.cosTurn (c7profile.ra0 + (c7profile.ra1 - c7profile.ra0)
              * CMAN_RadialProgress c7profile (1 / 2))
            * (c7profile.r0 + (c7profile.r1 - c7profile.r0)
              * CMAN_RadialProgress c7profile (1 / 2)) :=
  ⟨Or.inl rfl,
    (C7_radial_orbit.1 exOps c7profile (1 / 2) true cState0 (Or.inl rfl)).1⟩


/-- C4: for every reachable state of the angle smoothing buffer — after
the first-activation fill and any sequence of steady-state updates, each of
which subtracts the outgoing slot value from the running sum and adds the
incoming sample — the running sum field equals exactly the sum of the `N`
stored slot values. -/
theorem C4_buffer_sum_exact (ops : PrimOps) (c : Profile) (t0 : ℚ)
    (ts : ℕ → ℚ) (s0 : CmanState) (k : ℕ)
    (hN : 1 < c.ga_buffer_len) (hw : s0.wasActive = false)
    (h0 : 0 ≤ s0.buf_index) (h1 : s0.buf_index < c.ga_buffer_len) :
    (bufferSteadyRun ops c ts k
        { CMAN_NextBufferValues ops c t0 s0 with wasActive := true }).buf_sum
      = ∑ i in Finset.range c.ga_buffer_len.toNat,
          (bufferSteadyRun ops c ts k
            { CMAN_NextBufferValues ops c t0 s0 with
              wasActive := true }).buf_values (i : Int) := by
  have hNpos : 0 < c.ga_buffer_len := by omega
  have hfill := nextBufferValues_inv ops c t0 s0 hNpos h0 h1
    (fun hww => absurd (hw ▸ hww) (by simp))
  have hidx := nextBufferValues_index ops c t0 s0 hNpos h0 h1
  have hrun := bufferSteadyRun_inv ops c ts hNpos k
    { CMAN_NextBufferValues ops c t0 s0 with wasActive := true }
    rfl hfill hidx.1 hidx.2
  exact hrun.1

/-- C4 witness: the invariant applied after the fill and two steady-state
updates of a concrete 2-slot buffer. -/
theorem C4_witness :
    1 < c4profile.ga_buffer_len ∧
      (bufferSteadyRun exOps c4profile (fun j => (j : ℚ) + 1) 2
          { CMAN_NextBufferValues exOps c4profile 0 cState0 with
            wasActive := true }).buf_sum
        = ∑ i in Finset.range c4profile.ga_buffer_len.toNat,
            (bufferSteadyRun exOps c4profile (fun j => (j : ℚ) + 1) 2
              { CMAN_NextBufferValues exOps c4profile 0 cState0 with
                wasActive := true }).buf_values (i : Int) :=
  ⟨by decide,
    C4_buffer_sum_exact exOps c4profile 0 (fun j => (j : ℚ) + 1) cState0 2
      (by decide) rfl (by decide) (by decide)⟩

/-- C5 counterexample: on a concrete first-activation call (Bezier path,
Relative angle mode, `N = 4`, initial ring index 0) the buffer index after
the fill is 1, not 0 — the fill does not reset the index; the shared
index-advance line at the end of the update runs in both branches. -/
theorem C5_counterexample :
    c5profile.path_mode = CMAN_PATH_MODE_BEZIER ∧
      c5profile.angle_mode = CMAN_ANGLE_MODE_RELATIVE ∧
      (1 : Int) < c5profile.ga_buffer_len ∧
      cState0.wasActive = false ∧ cState0.buf_index = 0 ∧
      (CMAN_NextBufferValues exOps c5profile 0 cState0).buf_index = 1 ∧
      (CMAN_NextBufferValues exOps c5profile 0 cState0).buf_index ≠ 0 := by
  refine ⟨rfl, rfl, by decide, rfl, rfl, ?_, ?_⟩
  · rw [(nextBufferValues_fill_components exOps c5profile 0 cState0 rfl).2.2.1]
    decide
  · rw [(nextBufferValues_fill_components exOps c5profile 0 cState0 rfl).2.2.1]
    decide

/-- C5 (amended): on the first activation tic (`wasActive = false`) with
smoothing applicable, the buffer update fills all `N` slots by evaluating
the path unbuffered with overshoot forced to true at times
`t + N/2, t + N/2 - 1, …` counting down (`N = angleBufferLength` samples,
slot `i` holding the sample at `t + N/2 - (N - 1 - i)`), storing each
resulting yaw and accumulating their sum from zero; the buffer index is
not reset to 0 — it advances by one from its previous value, wrapping to 0
exactly when it reaches `N`. -/
theorem C5_first_activation_fill (ops : PrimOps) (c : Profile) (t : ℚ)
    (s : CmanState) (hpm : c.path_mode = CMAN_PATH_MODE_BEZIER)
    (ham : c.angle_mode = CMAN_ANGLE_MODE_RELATIVE)
    (hw : s.wasActive = false) :
    (∀ i : ℕ, i < c.ga_buffer_len.toNat →
        (CMAN_NextBufferValues ops c t s).buf_values (i : Int)
          = CMAN_BezierFillYaw ops c
              ((t + 1 * ((Int.tdiv c.ga_buffer_len 2 : Int) : ℚ))
                - ((c.ga_buffer_len.toNat - 1 - i : ℕ) : ℚ))) ∧
      (CMAN_NextBufferValues ops c t s).buf_sum
        = ∑ i in Finset.range c.ga_buffer_len.toNat,
            (CMAN_NextBufferValues ops c t s).buf_values (i : Int) ∧
      (CMAN_NextBufferValues ops c t s).buf_index
        = (if s.buf_index + 1 = c.ga_buffer_len then 0
           else s.buf_index + 1) := by
  obtain ⟨hsum, hval, hidx, -⟩ :=
    nextBufferValues_fill_components ops c t s hw
  refine ⟨?_, ?_, hidx⟩
  · intro i hi
    rw [hval]
    exact fillBuffer_values ops c hpm ham c.ga_buffer_len.toNat
      (t + 1 * ((Int.tdiv c.ga_buffer_len 2 : Int) : ℚ))
      { s with buf_sum := 0 } hw i hi
  · obtain ⟨-, -, -, hfs⟩ := fillBuffer_struct ops c c.ga_buffer_len.toNat
      (t + 1 * ((Int.tdiv c.ga_buffer_len 2 : Int) : ℚ)) { s with buf_sum := 0 }
    rw [hsum, hval, hfs]
    simp

/-- C5 witness: the amended fill description applied to slot 2 of the
concrete 4-slot first-activation scenario. -/
theorem C5_witness :
    c5profile.path_mode = CMAN_PATH_MODE_BEZIER ∧
      cState0.wasActive = false ∧ (2 : ℕ) < c5profile.ga_buffer_len.toNat ∧
      (CMAN_NextBufferValues exOps c5profile 0 cState0).buf_values ((2 : ℕ) : Int)
        = CMAN_BezierFillYaw exOps c5profile
            (((0 : ℚ) + 1 * ((Int.tdiv c5profile.ga_buffer_len 2 : Int) : ℚ))
              - ((c5profile.ga_buffer_len.toNat - 1 - 2 : ℕ) : ℚ)) :=
  ⟨rfl, rfl, by decide,
    (C5_first_activation_fill exOps c5profile 0 cState0 rfl rfl rfl).1 2
      (by decide)⟩

end Cman
